import Mathlib

/-!
Shallow embedding of `src/timereport.py` and verification of its
specification claims.

The script's core is:
  * `to_minutes`     - convert an `h:mm` token to minutes,
  * `line_re`        - the regex
    `^((?:\d{4}-\d{2}-\d{2})) ((?:\d{1,2}:\d{1,2}-\d{1,2}:\d{1,2}(?:, *)?)+)(?: \((\d+) min.*\))?`
    applied with `re.search` (the `^` anchor makes this a match at
    position 0, since `re.MULTILINE` is not set),
  * `minutes_from_line` - net minutes of one line, `None` when the line
    does not match,
  * `stats_from_file` - fold over the input lines, counting days and
    summing minutes (Python truthiness: a parsed line with 0 minutes is
    treated like an unparsed one),
  * `format_duration` / `timereport` - the final report.

Python exceptions (ValueError from tuple unpacking or `int`,
ZeroDivisionError from `//`) are modelled with `Option`/a dedicated
`error` constructor: a `none`/`.error` result means the Python code
raises at that point.  Python `//` and `%` on ints are floor division
and floor modulus, modelled with `Int.fdiv` and `Int.fmod`.  The regex
class `\d` is modelled as an ASCII digit; every input relevant to the
claims is ASCII.

The regex is embedded as a deterministic recursive-descent matcher.
For this particular pattern the backtracking search of Python's `re`
engine is deterministic: once the mandatory date, space, and first
interval repetition have matched, the remainder of the pattern (the
optional further repetitions, the optional `(?:, *)?`, and the optional
pause group) can always succeed by matching the empty string, so the
first configuration explored - maximal greed everywhere - is the one
returned, and no choice made inside the interval repetitions is ever
revisited.  The only live backtracking is `\d{1,2}` followed by a
mandatory `:` or `-` (two digits first, then one), which the matcher
implements directly.
-/

namespace Timereport

/-- Digit test for the regex class `\d` (ASCII). -/
def isDig (c : Char) : Bool := c.isDigit

/-- Numeric value of a decimal digit string, most significant first. -/
def digitsVal (cs : List Char) : Nat := cs.foldl (fun a c => a * 10 + (c.toNat - 48)) 0

/-- Model of Python `int(s)` on a string: an optional sign followed by one
or more decimal digits parses, everything else raises (modelled `none`).
(Python also accepts surrounding whitespace and underscores; no call site
in this program can produce those.) -/
def pyInt (cs : List Char) : Option Int :=
  match cs with
  | [] => none
  | c :: rest =>
      if c = '-' then
        if rest ≠ [] ∧ rest.all isDig then some (-(digitsVal rest : Int)) else none
      else if c = '+' then
        if rest ≠ [] ∧ rest.all isDig then some ((digitsVal rest : Int)) else none
      else if (c :: rest).all isDig then some ((digitsVal (c :: rest) : Int)) else none

/-- Model of Python `str.split(sep)` for a one-character separator:
split at every occurrence, keeping empty pieces (`''.split('-') == ['']`). -/
def splitOnChar (sep : Char) : List Char → List (List Char)
  | [] => [[]]
  | c :: cs =>
      if c = sep then [] :: splitOnChar sep cs
      else
        match splitOnChar sep cs with
        | [] => [[c]]
        | p :: ps => (c :: p) :: ps

/-- Embedding of `to_minutes(s)`: `h, m = s.split(':')` (exactly two parts
or ValueError), then `int(h) * 60 + int(m)`.  `none` models an exception. -/
def to_minutes (s : String) : Option Int :=
  match splitOnChar ':' s.data with
  | [h, m] =>
      match pyInt h, pyInt m with
      | some a, some b => some (a * 60 + b)
      | _, _ => none
  | _ => none

/-- Consume exactly `n` ASCII digits. -/
def takeDigits : Nat → List Char → Option (List Char)
  | 0, cs => some cs
  | _ + 1, [] => none
  | n + 1, c :: cs => if isDig c then takeDigits n cs else none

/-- Consume one expected character. -/
def takeChar (x : Char) : List Char → Option (List Char)
  | [] => none
  | c :: cs => if c = x then some cs else none

/-- Regex piece `\d{4}-\d{2}-\d{2}` (the date; fixed widths, no choice). -/
def matchDate (cs : List Char) : Option (List Char) := do
  let cs1 ← takeDigits 4 cs
  let cs2 ← takeChar '-' cs1
  let cs3 ← takeDigits 2 cs2
  let cs4 ← takeChar '-' cs3
  takeDigits 2 cs4

/-- Regex piece `\d{1,2}` immediately followed by the literal `x`, where
`x` is `:` or `-` in every use (never a digit).  Greedy with backtracking:
two digits are tried first; if the third character is not `x` the
one-digit alternative requires the second character to be `x`, which is
impossible because that character is a digit.  Returns the consumed
characters (digits plus `x`) and the rest. -/
def numThenC (x : Char) : List Char → Option (List Char × List Char)
  | [] => none
  | a :: rest =>
      if isDig a then
        match rest with
        | [] => none
        | b :: rest2 =>
            if isDig b then
              match rest2 with
              | [] => none
              | c :: rest3 => if c = x then some ([a, b, c], rest3) else none
            else if b = x then some ([a, b], rest2) else none
      else none

/-- Regex piece `\d{1,2}` with nothing mandatory after it inside the
repetition: greedy, two digits when available, else one. -/
def num2C : List Char → Option (List Char × List Char)
  | [] => none
  | a :: rest =>
      if isDig a then
        match rest with
        | [] => some ([a], [])
        | b :: rest2 => if isDig b then some ([a, b], rest2) else some ([a], b :: rest2)
      else none

/-- Maximal run of space characters (regex ` *`). -/
def spaceSpan : List Char → List Char × List Char
  | [] => ([], [])
  | c :: cs =>
      if c = ' ' then
        match spaceSpan cs with
        | (sp, r) => (' ' :: sp, r)
      else ([], c :: cs)

/-- Regex piece `(?:, *)?`: a comma and any following spaces, or nothing.
Nothing after it can force a retry, so the greedy result stands. -/
def commaSpacesC : List Char → List Char × List Char
  | [] => ([], [])
  | c :: cs =>
      if c = ',' then
        match spaceSpan cs with
        | (sp, r) => (',' :: sp, r)
      else ([], c :: cs)

/-- One repetition `\d{1,2}:\d{1,2}-\d{1,2}:\d{1,2}(?:, *)?` of the
intervals group.  Returns (consumed characters, rest). -/
def matchRep (cs : List Char) : Option (List Char × List Char) := do
  let (s1, cs1) ← numThenC ':' cs
  let (s2, cs2) ← numThenC '-' cs1
  let (s3, cs3) ← numThenC ':' cs2
  let (s4, cs4) ← num2C cs3
  match commaSpacesC cs4 with
  | (s5, cs5) => pure (s1 ++ s2 ++ s3 ++ s4 ++ s5, cs5)

/-- The `(...)+` over interval repetitions: greedily take as many
repetitions as possible (at least one).  `fuel` bounds the recursion;
every repetition consumes at least seven characters, so
`input length + 1` fuel is never exhausted. -/
def matchReps : Nat → List Char → Option (List Char × List Char)
  | 0, _ => none
  | fuel + 1, cs =>
      match matchRep cs with
      | none => none
      | some (c1, cs') =>
          match matchReps fuel cs' with
          | some (c2, r) => some (c1 ++ c2, r)
          | none => some (c1, cs')

/-- Maximal run of ASCII digits (regex `\d+`; greedy, and the following
mandatory space makes the shorter alternatives unreachable). -/
def digitSpan : List Char → List Char × List Char
  | [] => ([], [])
  | c :: cs =>
      if isDig c then
        match digitSpan cs with
        | (ds, r) => (c :: ds, r)
      else ([], c :: cs)

/-- Regex piece `.*\)` succeeds iff a `)` is reachable without crossing a
newline (`.` does not match a newline). -/
def hasCloseParen : List Char → Bool
  | [] => false
  | c :: cs => if c = ')' then true else if c = '\n' then false else hasCloseParen cs

/-- The optional pause group `(?: \((\d+) min.*\))?`.  Returns the
captured digits (group 3) when the group matches at this position, and
`none` when it does not (the group then matches the empty string and the
capture is Python `None`). -/
def matchPause (cs : List Char) : Option String :=
  match cs with
  | ' ' :: '(' :: rest =>
      match digitSpan rest with
      | ([], _) => none
      | (ds, r) =>
          match r with
          | ' ' :: 'm' :: 'i' :: 'n' :: r2 =>
              if hasCloseParen r2 then some (String.mk ds) else none
          | _ => none
  | _ => none

/-- Embedding of `line_re.search(line)`: `some (group 2, group 3)` when
the anchored pattern matches - the intervals substring (including any
trailing `, ` consumed by the greedy `(?:, *)?`) and the optional pause
digits.  Group 1 (the date) is unpacked but never used by the script, so
it is not returned. -/
def lineMatch (line : String) : Option (String × Option String) :=
  match matchDate line.data with
  | none => none
  | some cs1 =>
      match takeChar ' ' cs1 with
      | none => none
      | some cs2 =>
          match matchReps (cs2.length + 1) cs2 with
          | none => none
          | some (ivs, rest) => some (String.mk ivs, matchPause rest)

/-- Model of `re.split(r", *", s)`: split at every comma and drop the
spaces that immediately follow it. -/
def splitIntervals (cs : List Char) : List (List Char) :=
  match splitOnChar ',' cs with
  | [] => []
  | p :: ps => p :: ps.map (fun q => q.dropWhile (fun c => c = ' '))

/-- Outcome of `minutes_from_line`: a parsed net-minutes value, Python
`None` (no regex match), or an uncaught exception. -/
inductive MRes where
  | parsed (n : Int)
  | unparsed
  | error
deriving DecidableEq

/-- Loop body of `minutes_from_line`: for each piece of the split
intervals string, `start, stop = interval.split('-')` (exactly two parts
or ValueError) and accumulate `to_minutes(stop) - to_minutes(start)`.
`none` models an exception escaping the loop. -/
def sumIntervals : List (List Char) → Option Int
  | [] => some 0
  | piece :: rest =>
      match splitOnChar '-' piece with
      | [start, stop] =>
          match to_minutes (String.mk stop), to_minutes (String.mk start) with
          | some b, some a =>
              match sumIntervals rest with
              | some d => some (b - a + d)
              | none => none
          | _, _ => none
      | _ => none

/-- Python `pause = int(p) if p else 0` (the captured group is `None` or
a nonempty digit string). -/
def pauseInt : Option String → Option Int
  | none => some 0
  | some s => pyInt s.data

/-- Embedding of `minutes_from_line(line)`. -/
def minutes_from_line (line : String) : MRes :=
  match lineMatch line with
  | none => MRes.unparsed
  | some (ivs, p) =>
      match sumIntervals (splitIntervals ivs.data) with
      | none => MRes.error
      | some d =>
          match pauseInt p with
          | none => MRes.error
          | some pz => MRes.parsed (d - pz)

/-- Python `line.rstrip('\n')`: drop every trailing newline. -/
def pyRstripNewlines (s : String) : String :=
  String.mk ((s.data.reverse.dropWhile (fun c => c = '\n')).reverse)

/-- Embedding of `stats_from_file(f)`: returns (days, total minutes,
echoed lines in order).  `none` models an uncaught exception aborting the
whole run.  The branch on the parsed value mirrors Python truthiness
(`if minutes:`): `None` and `0` both fall to the `* `-echo branch. -/
def stats_from_file : List String → Option (Nat × Int × List String)
  | [] => some (0, 0, [])
  | l :: rest =>
      if pyRstripNewlines l = "" then stats_from_file rest
      else
        match minutes_from_line (pyRstripNewlines l) with
        | MRes.error => none
        | MRes.parsed n =>
            if n ≠ 0 then
              (stats_from_file rest).map (fun s =>
                (s.1 + 1, s.2.1 + n,
                  (pyRstripNewlines l ++ " (" ++ toString n ++ " min)") :: s.2.2))
            else
              (stats_from_file rest).map (fun s =>
                (s.1, s.2.1, ("* " ++ pyRstripNewlines l) :: s.2.2))
        | MRes.unparsed =>
            (stats_from_file rest).map (fun s =>
              (s.1, s.2.1, ("* " ++ pyRstripNewlines l) :: s.2.2))

/-- Python `f"{m:02}"` for the minutes field: zero-pad to width 2. -/
def pad2 (n : Int) : String :=
  if 0 ≤ n ∧ n < 10 then "0" ++ toString n else toString n

/-- Embedding of `format_duration(duration)`: `h = duration // 60`,
`m = duration % 60` (Python floor division and floor modulus), rendered
as `f"{h}:{m:02}"`. -/
def format_duration (duration : Int) : String :=
  toString (Int.fdiv duration 60) ++ ":" ++ pad2 (Int.fmod duration 60)

/-- Embedding of `timereport(f)`.  `duration // days` raises
ZeroDivisionError when `days == 0`; that (and a crash propagating out of
`stats_from_file`) is modelled by `none`. -/
def timereport (f : List String) : Option String :=
  match stats_from_file f with
  | none => none
  | some (days, duration, _) =>
      if days = 0 then none
      else
        some ("Total " ++ toString days ++ " days, " ++ toString duration ++
          " min, " ++ toString (Int.fdiv duration (days : Int)) ++ " mins/day, " ++
          format_duration duration)

/-- Specification-side duration of one interval piece:
`toMinutes(stop) - toMinutes(start)` for a piece of the shape
`start-stop`, failure for any other shape. -/
def intervalDuration (piece : List Char) : Option Int :=
  match splitOnChar '-' piece with
  | [start, stop] =>
      match to_minutes (String.mk stop), to_minutes (String.mk start) with
      | some b, some a => some (b - a)
      | _, _ => none
  | _ => none

/-- Durations of all interval pieces of a line, failing when any piece
fails. -/
def mapOptDuration : List (List Char) → Option (List Int)
  | [] => some []
  | p :: ps =>
      match intervalDuration p, mapOptDuration ps with
      | some d, some ds => some (d :: ds)
      | _, _ => none

/-- Modelled from the spec: `formattedDuration` is the string `"{h}:{mm}"`
where `h = totalMinutes // 60` (floor division) and `mm = totalMinutes % 60`
zero-padded to 2 digits. -/
def formatDurationSpec (t : Int) : String :=
  toString (Int.fdiv t 60) ++ ":" ++
    (if (toString (Int.fmod t 60)).length < 2 then "0" ++ toString (Int.fmod t 60)
     else toString (Int.fmod t 60))

/-- Time token `h:mm` with minute zero-padded to two digits and hour
written without padding (the shape `format_duration` itself produces). -/
def timeToken (h m : Nat) : String :=
  toString h ++ ":" ++ (if m < 10 then "0" ++ toString m else toString m)

/-- The empty string never matches the line pattern. -/
theorem minutes_from_line_empty : minutes_from_line "" = MRes.unparsed := by decide

/-- Claim C1 (code bug): on an input in which zero lines were successfully
parsed, `stats_from_file` returns `(0, 0)` but `timereport` divides
`duration // days` unguarded and raises ZeroDivisionError (modelled by
`none`) instead of reporting zero days and zero minutes-per-day. -/
theorem claim1_zero_days_crash :
    stats_from_file ["\n"] = some (0, 0, []) ∧
    timereport ["\n"] = none ∧
    timereport [] = none := by decide

/-- Claim C2 (counterexample): the line `2019-04-09 8:00-8:00 x` parses
to net minutes 0, yet the aggregator does not increment `daysCounted`
nor its echo: Python truthiness (`if minutes:`) treats the parsed 0 like
a failure, contradicting the claim that every `Parsed` line is counted
regardless of the sign or zero value of its net minutes. -/
theorem claim2_counterexample :
    minutes_from_line "2019-04-09 8:00-8:00 x" = MRes.parsed 0 ∧
    stats_from_file ["2019-04-09 8:00-8:00 x"] =
      some (0, 0, ["* 2019-04-09 8:00-8:00 x"]) := by decide

/-- Claim C2 (amended): a line whose parse outcome is `Parsed` with
nonzero net minutes increments `daysCounted` by exactly 1, adds its net
minutes to `totalMinutes` and is echoed with the `(<n> min)` suffix; a
`Parsed` line with net minutes 0 is treated like an unparsed line
(echoed with `* `, counts unchanged). -/
theorem claim2_amended :
    (∀ (l : String) (rest : List String) (n : Int),
        minutes_from_line (pyRstripNewlines l) = MRes.parsed n → n ≠ 0 →
        stats_from_file (l :: rest) = (stats_from_file rest).map (fun s =>
          (s.1 + 1, s.2.1 + n,
            (pyRstripNewlines l ++ " (" ++ toString n ++ " min)") :: s.2.2))) ∧
    (∀ (l : String) (rest : List String),
        minutes_from_line (pyRstripNewlines l) = MRes.parsed 0 →
        stats_from_file (l :: rest) = (stats_from_file rest).map (fun s =>
          (s.1, s.2.1, ("* " ++ pyRstripNewlines l) :: s.2.2))) := by
  constructor
  · intro l rest n hp hn
    have he : ¬ pyRstripNewlines l = "" := by
      intro h
      rw [h, minutes_from_line_empty] at hp
      exact MRes.noConfusion hp
    simp only [stats_from_file, if_neg he, hp, if_pos hn]
  · intro l rest hp
    have he : ¬ pyRstripNewlines l = "" := by
      intro h
      rw [h, minutes_from_line_empty] at hp
      exact MRes.noConfusion hp
    simp only [stats_from_file, if_neg he, hp]
    simp

/-- Claim C2 witness: the amended step evaluated at two concrete lines. -/
theorem claim2_witness :
    stats_from_file ["2019-04-09 8:00-17:00 x"] = (stats_from_file []).map (fun s =>
      (s.1 + 1, s.2.1 + 540,
        (pyRstripNewlines "2019-04-09 8:00-17:00 x" ++ " (" ++ toString (540 : Int) ++
          " min)") :: s.2.2)) ∧
    stats_from_file ["2019-04-09 8:00-8:00 y"] = (stats_from_file []).map (fun s =>
      (s.1, s.2.1, ("* " ++ pyRstripNewlines "2019-04-09 8:00-8:00 y") :: s.2.2)) :=
  ⟨claim2_amended.1 "2019-04-09 8:00-17:00 x" [] 540 (by decide) (by decide),
   claim2_amended.2 "2019-04-09 8:00-8:00 y" [] (by decide)⟩

/-- Claim C3 (code bug): a structurally non-matching line does yield
`Unparsed`, but a line whose intervals group captures a trailing comma
(here `2019-04-09 8:00-9:00, x`: group 2 is `8:00-9:00, `) makes
`re.split` produce an empty piece, on which `start, stop =
interval.split('-')` raises an uncaught ValueError that aborts the run,
so the processing of subsequent lines IS aborted. -/
theorem claim3_conversion_failure_aborts :
    minutes_from_line "2019/04/09 8.00-17.00 jobbade" = MRes.unparsed ∧
    lineMatch "2019-04-09 8:00-9:00, x" = some ("8:00-9:00, ", none) ∧
    minutes_from_line "2019-04-09 8:00-9:00, x" = MRes.error ∧
    stats_from_file ["2019-04-09 8:00-9:00, x\n", "2019-04-09 8:00-17:00 ok\n"] =
      none ∧
    stats_from_file ["2019-04-09 8:00-17:00 ok\n"] =
      some (1, 540, ["2019-04-09 8:00-17:00 ok (540 min)"]) := by decide

/-- Claim C6: the two-line end-to-end example yields 2 days, 850 total
minutes, 425 minutes per day and formatted duration `14:10`. -/
theorem claim6_end_to_end :
    stats_from_file ["2019-04-09 8:00-17:00 (50 min lunch) jobbade med data\n",
        "2019-04-09 9:15-16:30 (75 min lunch) mer data\n"] =
      some (2, 850,
        ["2019-04-09 8:00-17:00 (50 min lunch) jobbade med data (490 min)",
         "2019-04-09 9:15-16:30 (75 min lunch) mer data (360 min)"]) ∧
    Int.fdiv 850 2 = 425 ∧
    format_duration 850 = "14:10" ∧
    timereport ["2019-04-09 8:00-17:00 (50 min lunch) jobbade med data\n",
        "2019-04-09 9:15-16:30 (75 min lunch) mer data\n"] =
      some "Total 2 days, 850 min, 425 mins/day, 14:10" := by decide

/-- Claim C10 (counterexample): the line
`2019-04-09 8:00-9:00, (50min lunch)` matches the date-and-intervals
prefix (the pattern matches, with the trailing `, ` kept in the
intervals capture) and its trailing parenthesized text `(50min lunch)`
is not of the shape `(<integer> min ...)`, yet the outcome is an
uncaught ValueError (the empty split piece of the trailing comma), not
`Parsed` with pause 0 - so a line of the claimed class can be a runtime
failure. -/
theorem claim10_counterexample :
    lineMatch "2019-04-09 8:00-9:00, (50min lunch)" =
      some ("8:00-9:00, ", none) ∧
    minutes_from_line "2019-04-09 8:00-9:00, (50min lunch)" =
      MRes.error := by decide

/-- Claim C9: a line that is empty after trimming trailing newlines is
skipped entirely; a non-empty `Unparsed` line is echoed as
`* <original line>` and changes neither total. -/
theorem claim9_skip_and_unparsed :
    (∀ (l : String) (rest : List String), pyRstripNewlines l = "" →
        stats_from_file (l :: rest) = stats_from_file rest) ∧
    (∀ (l : String) (rest : List String), pyRstripNewlines l ≠ "" →
        minutes_from_line (pyRstripNewlines l) = MRes.unparsed →
        stats_from_file (l :: rest) = (stats_from_file rest).map (fun s =>
          (s.1, s.2.1, ("* " ++ pyRstripNewlines l) :: s.2.2))) := by
  constructor
  · intro l rest he
    simp only [stats_from_file, if_pos he]
  · intro l rest he hu
    simp only [stats_from_file, if_neg he, hu]

/-- The accumulation loop of `minutes_from_line` computes the sum of the
per-interval durations. -/
theorem sumIntervals_eq_sum (ps : List (List Char)) :
    sumIntervals ps = (mapOptDuration ps).map List.sum := by
  induction ps with
  | nil => rfl
  | cons p ps ih =>
      rcases hsp : splitOnChar '-' p with _ | ⟨a, _ | ⟨b, _ | t⟩⟩
      · simp [sumIntervals, mapOptDuration, intervalDuration, hsp]
      · simp [sumIntervals, mapOptDuration, intervalDuration, hsp]
      · rcases hb : to_minutes (String.mk b) with _ | vb
        · simp [sumIntervals, mapOptDuration, intervalDuration, hsp, hb]
        · rcases ha : to_minutes (String.mk a) with _ | va
          · simp [sumIntervals, mapOptDuration, intervalDuration, hsp, hb, ha]
          · rcases hd : mapOptDuration ps with _ | ds <;> rw [hd] at ih <;>
              simp [sumIntervals, mapOptDuration, intervalDuration, hsp, hb, ha, hd, ih,
                List.sum_cons]
      · simp [sumIntervals, mapOptDuration, intervalDuration, hsp]

/-- Claim C4: whenever a line parses, its net minutes are the sum over
its interval pieces of `toMinutes(stop) - toMinutes(start)` minus the
pause, returned as-is (the five-interval example gives 115, and a line
whose stop precedes its start gives an unclamped negative value). -/
theorem claim4_net_minutes :
    (∀ (line ivs : String) (p : Option String) (n : Int),
        lineMatch line = some (ivs, p) →
        minutes_from_line line = MRes.parsed n →
        ∃ ds pz, mapOptDuration (splitIntervals ivs.data) = some ds ∧
          pauseInt p = some pz ∧ n = ds.sum - pz) ∧
    minutes_from_line
        "2019-08-16 7:10-8:10, 9:00-9:10, 9:30-10:00, 11:25-11:45, 13:35-13:45 (15 min lunch) jobbade" =
      MRes.parsed 115 ∧
    minutes_from_line "2019-04-09 17:00-8:00 jobbade" = MRes.parsed (-540) := by
  refine ⟨?_, by decide, by decide⟩
  intro line ivs p n hm hp
  have hsum := sumIntervals_eq_sum (splitIntervals ivs.data)
  rcases hs : sumIntervals (splitIntervals ivs.data) with _ | d
  · simp only [minutes_from_line, hm, hs] at hp
    exact MRes.noConfusion hp
  · rcases hz : pauseInt p with _ | pz
    · simp only [minutes_from_line, hm, hs, hz] at hp
      exact MRes.noConfusion hp
    · simp only [minutes_from_line, hm, hs, hz, MRes.parsed.injEq] at hp
      rw [hs] at hsum
      rcases hd : mapOptDuration (splitIntervals ivs.data) with _ | ds
      · rw [hd] at hsum
        exact Option.noConfusion (hsum.trans rfl)
      · rw [hd] at hsum
        have hds : d = List.sum ds := Option.some.inj (hsum.trans rfl)
        exact ⟨ds, pz, rfl, rfl, by omega⟩

/-- Claim C4 witness: the general formula instantiated at the
five-interval line of the spec. -/
theorem claim4_witness :
    ∃ ds pz,
      mapOptDuration (splitIntervals
        ("7:10-8:10, 9:00-9:10, 9:30-10:00, 11:25-11:45, 13:35-13:45" : String).data) =
        some ds ∧
      pauseInt (some "15") = some pz ∧ (115 : Int) = ds.sum - pz :=
  claim4_net_minutes.1
    "2019-08-16 7:10-8:10, 9:00-9:10, 9:30-10:00, 11:25-11:45, 13:35-13:45 (15 min lunch) jobbade"
    "7:10-8:10, 9:00-9:10, 9:30-10:00, 11:25-11:45, 13:35-13:45" (some "15") 115
    (by decide) (by decide)

/-- Claim C7: `format_duration` agrees with the specified
`"{h}:{mm}"` rendering (floor division, two-digit zero-padded minutes)
on every integer, and on the three quoted examples. -/
theorem claim7_format_duration :
    (∀ t : Int, format_duration t = formatDurationSpec t) ∧
    format_duration 75 = "1:15" ∧
    format_duration 4 = "0:04" ∧
    format_duration 601 = "10:01" := by
  refine ⟨?_, by decide, by decide, by decide⟩
  intro t
  have h0 : 0 ≤ Int.fmod t 60 := Int.fmod_nonneg' t (by decide)
  have h60 : Int.fmod t 60 < 60 := Int.fmod_lt_of_pos t (by decide)
  have hpad : pad2 (Int.fmod t 60) =
      (if (toString (Int.fmod t 60)).length < 2 then "0" ++ toString (Int.fmod t 60)
       else toString (Int.fmod t 60)) := by
    set m := Int.fmod t 60 with hm
    interval_cases m <;> decide
  unfold format_duration formatDurationSpec
  rw [hpad]

/-- Claim C8: for every hour 0-23 and minute 0-59, converting the token
`h:mm` (minute zero-padded) to minutes and formatting it back reproduces
the token. -/
theorem claim8_roundtrip :
    ∀ h : Nat, h ≤ 23 → ∀ m : Nat, m ≤ 59 →
      (to_minutes (timeToken h m)).map format_duration = some (timeToken h m) := by
  decide

/-- Claim C8 witness: the round trip at 8:05. -/
theorem claim8_witness :
    (8 : Nat) ≤ 23 ∧ (5 : Nat) ≤ 59 ∧
    (to_minutes (timeToken 8 5)).map format_duration = some (timeToken 8 5) :=
  ⟨by decide, by decide, claim8_roundtrip 8 (by decide) 5 (by decide)⟩

/-- A maximal digit run over digits followed by a non-digit splits off
exactly the digits. -/
theorem digitSpan_append (ds : List Char) (c : Char) (r : List Char)
    (hds : ∀ x ∈ ds, isDig x = true) (hc : isDig c = false) :
    digitSpan (ds ++ c :: r) = (ds, c :: r) := by
  induction ds with
  | nil => simp [digitSpan, hc]
  | cons d ds ih =>
      have hd : isDig d = true := hds d (List.mem_cons_self d ds)
      have hrest : ∀ x ∈ ds, isDig x = true := fun x hx => hds x (List.mem_cons_of_mem d hx)
      simp [digitSpan, hd, ih hrest]

/-- The `.*\)` search succeeds when the remaining text has no newline
before its final closing parenthesis. -/
theorem hasCloseParen_append (tl : List Char) (h1 : ')' ∉ tl) (h2 : '\n' ∉ tl) :
    hasCloseParen (tl ++ [')']) = true := by
  induction tl with
  | nil => rfl
  | cons c cs ih =>
      have hc1 : ¬ c = ')' := fun h => h1 (by simp [h])
      have hc2 : ¬ c = '\n' := fun h => h2 (by simp [h])
      have ih' := ih (fun h => h1 (List.mem_cons_of_mem c h))
        (fun h => h2 (List.mem_cons_of_mem c h))
      simp [hasCloseParen, hc1, hc2, ih']

/-- Python `int` on a nonempty string of decimal digits yields its value. -/
theorem pyInt_digits (ds : List Char) (hne : ds ≠ [])
    (hds : ∀ x ∈ ds, isDig x = true) :
    pyInt ds = some ((digitsVal ds : Int)) := by
  cases ds with
  | nil => exact absurd rfl hne
  | cons c rest =>
      have hc : isDig c = true := hds c (List.mem_cons_self c rest)
      have hcm : ¬ c = '-' := fun h => by rw [h] at hc; exact absurd hc (by decide)
      have hcp : ¬ c = '+' := fun h => by rw [h] at hc; exact absurd hc (by decide)
      have hall : (c :: rest).all isDig = true := List.all_eq_true.mpr hds
      simp [pyInt, hcm, hcp, hall]

/-- The pause group matches an annotation `(<digits> min<text>)` whose
text contains no closing parenthesis and no newline, capturing exactly
the leading digits. -/
theorem matchPause_leading_digits (d : Char) (ds tl : List Char)
    (hds : ∀ x ∈ d :: ds, isDig x = true) (h1 : ')' ∉ tl) (h2 : '\n' ∉ tl) :
    matchPause (' ' :: '(' :: ((d :: ds) ++
        (' ' :: 'm' :: 'i' :: 'n' :: (tl ++ [')'])))) =
      some (String.mk (d :: ds)) := by
  have hspan := digitSpan_append (d :: ds) ' ' ('m' :: 'i' :: 'n' :: (tl ++ [')'])) hds
    (by decide)
  have hcp := hasCloseParen_append tl h1 h2
  simp only [List.cons_append] at hspan
  simp only [matchPause, List.cons_append, hspan, hcp, if_true]

/-- Evaluating the anchored pattern on the fixed prefix
`2019-04-09 8:00-17:00` followed by a space: the interval repetitions
stop at the space and the pause group is tried right there. -/
theorem lineMatch_prefix (r : List Char) :
    lineMatch (String.mk ("2019-04-09 8:00-17:00".data ++ (' ' :: r))) =
      some ("8:00-17:00", matchPause (' ' :: r)) := rfl

/-- Claim C5: on a line with a trailing annotation of the shape
`(<integer> min ...)`, the pause subtracted is exactly the leading
integer of the annotation, whatever trailing text follows (in particular
an extra `+ 10 min call` clause is ignored, so that line also gives
490); without an annotation the pause is 0 and the quoted line gives
540. -/
theorem claim5_pause_extraction :
    (∀ (d : Char) (ds tl : List Char), (∀ x ∈ d :: ds, isDig x = true) →
        ')' ∉ tl → '\n' ∉ tl →
        minutes_from_line (String.mk ("2019-04-09 8:00-17:00".data ++
          (' ' :: ('(' :: ((d :: ds) ++
            (' ' :: 'm' :: 'i' :: 'n' :: (tl ++ [')']))))))) =
          MRes.parsed (540 - (digitsVal (d :: ds) : Int))) ∧
    minutes_from_line "2019-04-09 8:00-17:00 (50 min lunch) jobbade med data" =
      MRes.parsed 490 ∧
    minutes_from_line "2019-04-09 8:00-17:00 (50 min lunch + 10 min call) jobbade med data" =
      MRes.parsed 490 ∧
    minutes_from_line "2019-04-09 8:00-17:00 jobbade" = MRes.parsed 540 := by
  refine ⟨?_, by decide, by decide, by decide⟩
  intro d ds tl hds h1 h2
  have hlm := lineMatch_prefix ('(' :: ((d :: ds) ++
    (' ' :: 'm' :: 'i' :: 'n' :: (tl ++ [')']))))
  rw [matchPause_leading_digits d ds tl hds h1 h2] at hlm
  have hsum : sumIntervals (splitIntervals ("8:00-17:00" : String).data) = some 540 := by
    decide
  have hpz : pauseInt (some (String.mk (d :: ds))) =
      some ((digitsVal (d :: ds) : Int)) :=
    pyInt_digits (d :: ds) (by simp) hds
  simp only [minutes_from_line, hlm, hsum, hpz]

/-- Claim C5 witness: the annotation step at `(50 min lunch)`. -/
theorem claim5_witness :
    minutes_from_line (String.mk ("2019-04-09 8:00-17:00".data ++
      (' ' :: ('(' :: (('5' :: ['0']) ++
        (' ' :: 'm' :: 'i' :: 'n' :: (" lunch".data ++ [')']))))))) =
      MRes.parsed (540 - (digitsVal ('5' :: ['0']) : Int)) :=
  claim5_pause_extraction.1 '5' ['0'] " lunch".data (by decide) (by decide) (by decide)

/-- Claim C10 (amended): for every line formed of the date-and-intervals
prefix `2019-04-09 8:00-17:00` - whose intervals capture carries no
trailing comma separator - followed by a space and any trailing text on
which the pause group does not match, the outcome is still `Parsed` with
pause 0 (net minutes 540); in particular the malformed annotations
`(50min lunch)` (no space before `min`) and `(lunch 50 min)` (text
before the integer) are silently treated as absent.  (When the intervals
capture does end with a comma separator, the line instead hits the
uncaught ValueError already established for claim C3.) -/
theorem claim10_pause_group_unmatched :
    (∀ r : List Char, matchPause (' ' :: r) = none →
        minutes_from_line (String.mk ("2019-04-09 8:00-17:00".data ++ (' ' :: r))) =
          MRes.parsed 540) ∧
    lineMatch "2019-04-09 8:00-17:00 (50min lunch) jobbade" =
      some ("8:00-17:00", none) ∧
    minutes_from_line "2019-04-09 8:00-17:00 (50min lunch) jobbade" =
      MRes.parsed 540 ∧
    lineMatch "2019-04-09 8:00-17:00 (lunch 50 min) jobbade" =
      some ("8:00-17:00", none) ∧
    minutes_from_line "2019-04-09 8:00-17:00 (lunch 50 min) jobbade" =
      MRes.parsed 540 := by
  refine ⟨?_, by decide, by decide, by decide, by decide⟩
  intro r hr
  have hlm := lineMatch_prefix r
  rw [hr] at hlm
  have hsum : sumIntervals (splitIntervals ("8:00-17:00" : String).data) = some 540 := by
    decide
  simp only [minutes_from_line, hlm, hsum, pauseInt]
  norm_num

/-- Claim C10 witness: the amended universal exercised at the malformed
annotation `(50min lunch)`. -/
theorem claim10_witness :
    minutes_from_line (String.mk ("2019-04-09 8:00-17:00".data ++
      (' ' :: "(50min lunch) jobbade".data))) = MRes.parsed 540 :=
  claim10_pause_group_unmatched.1 "(50min lunch) jobbade".data (by decide)

/-- Claim C9 witness: the skip and unparsed-echo steps at concrete lines. -/
theorem claim9_witness :
    stats_from_file ["\n"] = stats_from_file [] ∧
    stats_from_file ["ill-formatted line\n"] = (stats_from_file []).map (fun s =>
      (s.1, s.2.1, ("* " ++ pyRstripNewlines "ill-formatted line\n") :: s.2.2)) :=
  ⟨claim9_skip_and_unparsed.1 "\n" [] (by decide),
   claim9_skip_and_unparsed.2 "ill-formatted line\n" [] (by decide) (by decide)⟩

end Timereport
